import Mathlib

/-!
# dockfix: a shallow embedding of `dockfix.go`

The Go package drives a container engine through the `go-dockerclient`
library, persists the identifier of a named container in the file
`<name>.container`, and turns a published port into a URL.

The embedding passes the world explicitly: process environment, files of the
working directory, the package variable `dockerURL`, the engine (an arbitrary
deterministic machine, given as a record of transition functions), and the
lists of connection requests, engine requests and log lines issued so far.
A run-time abort of the Go program (nil dereference, index out of range) is
the `Outcome.panic` constructor.
-/

namespace Dockfix

/-! ## Strings: the library helpers the source calls -/

/-- Pieces of `cs` between occurrences of `sep`, with `cur` the reversed
piece under construction. -/
def splitAux (sep : Char) : List Char → List Char → List (List Char)
  | [], cur => [cur.reverse]
  | c :: cs, cur =>
    if c = sep then cur.reverse :: splitAux sep cs [] else splitAux sep cs (c :: cur)

/-- Go `strings.Split(s, sep)` for a one-character separator: always at least
one piece, `n + 1` pieces for `n` occurrences of the separator. -/
def stringsSplit (s : String) (sep : Char) : List String :=
  (splitAux sep s.data []).map String.mk

/-- Element `i` of a Go slice of strings; `none` stands for the index out of
range abort. -/
def index? {α : Type} (xs : List α) (i : Nat) : Option α := xs.get? i

/-- Go `strings.Cut(s, sep)` on characters: text before the first `sep`, text
after it, and whether `sep` occurs. -/
def cutAux (sep : Char) : List Char → List Char → List Char × List Char × Bool
  | [], cur => (cur.reverse, [], false)
  | c :: cs, cur => if c = sep then (cur.reverse, cs, true) else cutAux sep cs (c :: cur)

/-- Go `strings.Cut` for a one-character separator. -/
def stringsCut (s : String) (sep : Char) : String × String × Bool :=
  let r := cutAux sep s.data []
  (String.mk r.1, String.mk r.2.1, r.2.2)

/-! ## go-dockerclient data the source reads -/

/-- The type `docker.PortBinding`: one host-side binding of a container port. -/
structure PortBinding where
  HostIP : String
  HostPort : String
  deriving DecidableEq, Repr

/-- The type `docker.NetworkSettings`, reduced to the `Ports` map
(`map[Port][]PortBinding`), kept as an association list read by first match. -/
structure NetworkSettings where
  Ports : List (String × List PortBinding)
  deriving DecidableEq, Repr

/-- The type `docker.Container`: the engine identifier and the pointer field
`NetworkSettings` (`none` is the nil pointer). -/
structure DockerContainer where
  ID : String
  NetworkSettings : Option NetworkSettings
  deriving DecidableEq, Repr

/-- The type `Container` of the source: an embedded `*docker.Container`
(`none` is the nil pointer) and the fixture name. -/
structure Container where
  Container : Option DockerContainer
  name : String
  deriving DecidableEq, Repr

/-- Go map read `m[k]` on `map[Port][]PortBinding`: the zero value (a nil
slice) when the key is absent. -/
def portsAt (m : List (String × List PortBinding)) (k : String) : List PortBinding :=
  (m.lookup k).getD []

/-- Method `docker.Port.Proto`: the text after the first `/` of the port
specification, `tcp` when there is no `/`. -/
def Proto (p : String) : String :=
  match stringsSplit p '/' with
  | [_] => "tcp"
  | _ :: proto :: _ => proto
  | [] => "tcp"

/-! ## net/url -/

/-- The type `url.URL` (the user-info pointer is left out: the source never
reads or sets it). -/
structure URL where
  Scheme : String := ""
  Opaque : String := ""
  Host : String := ""
  Path : String := ""
  RawQuery : String := ""
  Fragment : String := ""
  deriving DecidableEq, Repr

/-- Go `getScheme` of net/url on the characters of the raw URL: `none` is the
error `missing protocol scheme`; otherwise the scheme and the rest. `seen` is
the reversed prefix read so far. -/
def getSchemeAux (raw : List Char) : List Char → List Char → Option (List Char × List Char)
  | [], _ => some ([], raw)
  | c :: cs, seen =>
    if c.isAlpha then getSchemeAux raw cs (c :: seen)
    else if c.isDigit ∨ c = '+' ∨ c = '-' ∨ c = '.' then
      (if seen = [] then some ([], raw) else getSchemeAux raw cs (c :: seen))
    else if c = ':' then
      (if seen = [] then none else some (seen.reverse, cs))
    else some ([], raw)

/-- Position-free `strings.LastIndex(authority, "@")` followed by the slice
after it: the text after the last `@`, the whole text when there is none. -/
def afterLastAt (cs : List Char) : List Char :=
  ((splitAux '@' cs []).getLast?).getD cs

/-- Go `url.Parse`, the part that decides the `Host` field: the fragment and
the query are cut off, the scheme is split off and lower-cased, a rest that
does not start with `/` is opaque (or an error when there is no scheme and its
first segment holds a colon), and a rest starting with `//` gives the
authority up to the next `/`, whose text after the last `@` is the host.
Percent-decoding and the validation of host and port text are left out. -/
def urlParse (rawURL : String) : Except String URL :=
  let (u, frag, _) := stringsCut rawURL '#'
  if u = "*" then .ok { Path := "*", Fragment := frag } else
  match getSchemeAux u.data u.data [] with
  | none => .error "missing protocol scheme"
  | some (scheme, rest0) =>
    let scheme := String.mk (scheme.map Char.toLower)
    let (rest, query, _) := stringsCut (String.mk rest0) '?'
    if ¬ rest.data.head? = some '/' then
      if scheme ≠ "" then .ok { Scheme := scheme, Opaque := rest, RawQuery := query, Fragment := frag }
      else if ':' ∈ (stringsCut rest '/').1.data then
        .error "first path segment in URL cannot contain colon"
      else .ok { Path := rest, RawQuery := query, Fragment := frag }
    else
      match rest.data with
      | '/' :: '/' :: auth =>
        if scheme = "" ∧ auth.head? = some '/' then
          .ok { Path := rest, RawQuery := query, Fragment := frag }
        else
          let (authority, path, found) := cutAux '/' auth []
          let path := if found then '/' :: path else []
          .ok { Scheme := scheme, Host := String.mk (afterLastAt authority),
                Path := String.mk path, RawQuery := query, Fragment := frag }
      | _ => .ok { Scheme := scheme, Path := rest, RawQuery := query, Fragment := frag }

/-! ## Outcomes and the environment -/

deriving instance DecidableEq for Except

/-- Result of a Go call that may abort: `panic` is the run-time abort, `done`
the normal return. -/
inductive Outcome (α : Type) where
  | panic (msg : String)
  | done (a : α)
  deriving DecidableEq, Repr

/-- Process environment: the variables that are set, with their values. -/
abbrev Environ := List (String × String)

/-- Go `os.Getenv`: the value of the variable, empty when it is not set. -/
def osGetenv (env : Environ) (key : String) : String :=
  (env.lookup key).getD ""

/-- Function `PortURL` of the source. The pair returned is the Go pair
`(*url.URL, error)`, `none` being nil. -/
def PortURL (env : Environ) (cont : Container) (portSpec : String) :
    Outcome (Option URL × Option String) :=
  match cont.Container with
  | none => .panic "nil pointer dereference"
  | some dc =>
    match dc.NetworkSettings with
    | none => .panic "nil pointer dereference"
    | some ns =>
      match index? (portsAt ns.Ports portSpec) 0 with
      | none => .panic "index out of range"
      | some port =>
        let envHost := osGetenv env "DOCKER_HOST"
        if envHost ≠ "" then
          match urlParse envHost with
          | .error err => .done (none, some err)
          | .ok envHostURL =>
            match index? (stringsSplit envHostURL.Host ':') 0 with
            | none => .panic "index out of range"
            | some host =>
              .done (some { Scheme := Proto portSpec, Host := host ++ ":" ++ port.HostPort }, none)
        else
          .done (some { Scheme := Proto portSpec, Host := port.HostIP ++ ":" ++ port.HostPort }, none)

/-! ## path and env helpers -/

/-- Text of the elements joined with `/` between them. -/
def joinSlash : List String → String
  | [] => ""
  | [e] => e
  | e :: es => e ++ "/" ++ joinSlash es

/-- One element of a path pushed on the cleaned elements read so far (most
recent first): empty and `.` elements vanish, `..` removes the element before
it, stays when nothing can be removed in a relative path, and vanishes at the
root. -/
def cleanStep (rooted : Bool) (stack : List String) (e : String) : List String :=
  if e = "" ∨ e = "." then stack
  else if e = ".." then
    match stack with
    | top :: below => if top = ".." then e :: stack else below
    | [] => if rooted then [] else [e]
  else e :: stack

/-- Go `path.Clean`: the shortest path naming the same place by purely lexical
processing. -/
def pathClean (p : String) : String :=
  if p = "" then "." else
  let rooted : Bool := p.data.head? = some '/'
  let body := joinSlash ((stringsSplit p '/').foldl (cleanStep rooted) []).reverse
  if rooted then "/" ++ body else if body = "" then "." else body

/-- Go `path.Join`: leading empty elements are dropped, the rest is joined
with `/` and cleaned; the empty string when every element is empty. -/
def pathJoin : List String → String
  | [] => ""
  | e :: es => if e = "" then pathJoin es else pathClean (joinSlash (e :: es))

/-- Function `env.Default` of the package `github.com/wrapp/env`: the value of
the variable, the default when the variable gives no value. -/
def envDefault (env : Environ) (key def_ : String) : String :=
  let v := osGetenv env key
  if v = "" then def_ else v

/-! ## Files of the working directory -/

/-- Files by name with their content, and the names on which reading and
on which writing or removing is refused by the operating system. -/
structure FileSys where
  files : String → Option String
  noRead : List String
  noWrite : List String

/-- Go `ioutil.ReadFile`: the content, or an error when the file is missing or
unreadable. -/
def readFile (fs : FileSys) (name : String) : Except String String :=
  if name ∈ fs.noRead then .error "permission denied"
  else match fs.files name with
    | none => .error "no such file or directory"
    | some data => .ok data

/-- The bytes Go `ioutil.ReadFile` returns next to its error: none on error. -/
def readData (fs : FileSys) (name : String) : String :=
  match readFile fs name with
  | .ok data => data
  | .error _ => ""

/-- Go `ioutil.WriteFile`: creates or replaces the file. -/
def writeFile (fs : FileSys) (name data : String) : Option String × FileSys :=
  if name ∈ fs.noWrite then (some "permission denied", fs)
  else (none, { fs with files := fun n => if n = name then some data else fs.files n })

/-- Go `os.Remove`: deletes the file; a missing file is an error. -/
def osRemove (fs : FileSys) (name : String) : Option String × FileSys :=
  match fs.files name with
  | none => (some "no such file or directory", fs)
  | some _ =>
    if name ∈ fs.noWrite then (some "permission denied", fs)
    else (none, { fs with files := fun n => if n = name then none else fs.files n })

/-! ## The engine behind go-dockerclient -/

/-- What a client is asked to connect to: `docker.NewClient(endpoint)` or
`docker.NewTLSClient(endpoint, cert, key, ca)`. -/
inductive ConnTarget where
  | plain (endpoint : String)
  | tls (endpoint cert key ca : String)
  deriving DecidableEq, Repr

/-- Address of a connection target. -/
def ConnTarget.endpoint : ConnTarget → String
  | .plain e => e
  | .tls e _ _ _ => e

/-- Requests a client sends to the engine. -/
inductive Request where
  | create (image : String)
  | start (id : String) (publishAllPorts : Bool)
  | inspect (id : String)
  | kill (id : String)
  | remove (id : String)
  deriving DecidableEq, Repr

/-- An engine together with the client library: an arbitrary deterministic
machine over states `σ`. `dial` is the error of building a client for a
target, if any; every other field answers one request and moves the state. -/
structure Engine (σ : Type) where
  dial : ConnTarget → Option String
  create : σ → String → Except String DockerContainer × σ
  start : σ → String → Bool → Option String × σ
  inspect : σ → String → Except String DockerContainer × σ
  kill : σ → String → Option String × σ
  remove : σ → String → Option String × σ

/-- A `*docker.Client` that is not nil. -/
structure Client where
  target : ConnTarget
  deriving DecidableEq, Repr

/-- Everything the package reads and changes. -/
structure World (σ : Type) where
  env : Environ
  fs : FileSys
  dockerURL : String
  engine : σ
  dials : List ConnTarget
  requests : List Request
  log : List String

/-- The constructors `docker.NewClient` and `docker.NewTLSClient`: the Go pair
`(*Client, error)`, a nil client with the error or a client with a nil error. -/
def dockerDial {σ : Type} (E : Engine σ) (t : ConnTarget) : Option Client × Option String :=
  match E.dial t with
  | some err => (none, some err)
  | none => (some ⟨t⟩, none)

/-- Function `NewClient` of the source. -/
def NewClient {σ : Type} (E : Engine σ) (w : World σ) :
    (Option Client × Option String) × World σ :=
  let dockerURL := envDefault w.env "DOCKER_HOST" "unix:///var/run/docker.sock"
  let dockerCertPath := envDefault w.env "DOCKER_CERT_PATH" ""
  if dockerCertPath ≠ "" then
    let ca := pathJoin [dockerCertPath, "ca.pem"]
    let key := pathJoin [dockerCertPath, "key.pem"]
    let cert := pathJoin [dockerCertPath, "cert.pem"]
    (dockerDial E (.tls dockerURL cert key ca),
      { w with dockerURL := dockerURL, dials := w.dials ++ [.tls dockerURL cert key ca] })
  else
    (dockerDial E (.plain dockerURL),
      { w with dockerURL := dockerURL, dials := w.dials ++ [.plain dockerURL] })

/-- The world after one request was answered by the engine. -/
def World.sent {σ : Type} (w : World σ) (r : Request) (s : σ) : World σ :=
  { w with engine := s, requests := w.requests ++ [r] }

/-- The world after one line was logged. -/
def World.logged {σ : Type} (w : World σ) (line : String) : World σ :=
  { w with log := w.log ++ [line] }

/-- Function `StartContainer` of the source, from the write of the identity
file on (lines 92 to 106): `c` is the container to return, `dc` the client. -/
def startTail {σ : Type} (E : Engine σ) (c : Container) (dc : Option Client)
    (containerFileName containerID : String) (w : World σ) :
    Outcome ((Container × Option String) × World σ) :=
  let w := { w with fs := (writeFile w.fs containerFileName containerID).2 }
  match dc with
  | none => .panic "nil pointer dereference"
  | some _ =>
    let w := w.sent (.start containerID true) (E.start w.engine containerID true).2
    let r := E.inspect w.engine containerID
    let w := w.sent (.inspect containerID) r.2
    match r.1 with
    | .error err => .done ((c, some err), w)
    | .ok cont => .done (({ c with Container := some cont }, none), w)

/-- Function `StartContainer` of the source. The pair returned is the Go pair
`(Container, error)`. -/
def StartContainer {σ : Type} (E : Engine σ) (w : World σ) (name baseImage : String) :
    Outcome ((Container × Option String) × World σ) :=
  let c : Container := { Container := none, name := name }
  let r := NewClient E w
  let dc := r.1.1
  let w := r.2
  match r.1.2 with
  | some err => .done ((c, some err), w)
  | none =>
    let containerFileName := name ++ ".container"
    let cid := readData w.fs containerFileName
    if cid.length ≠ 0 then
      let w := w.logged ("Using existing container: " ++ cid)
      startTail E c dc containerFileName cid w
    else
      let w := w.logged ("Creating new container for " ++ baseImage)
      match dc with
      | none => .panic "nil pointer dereference"
      | some _ =>
        let r := E.create w.engine baseImage
        let w := w.sent (.create baseImage) r.2
        match r.1 with
        | .error err => .done ((c, some err), w)
        | .ok cont =>
          let w := w.logged ("Created container: " ++ cont.ID)
          startTail E c dc containerFileName cont.ID w

/-- Function `StopContainer` of the source. -/
def StopContainer {σ : Type} (E : Engine σ) (w : World σ) (c : Container) :
    Outcome (World σ) :=
  let r := NewClient E w
  let dc := r.1.1
  let w := r.2
  match c.Container with
  | none => .panic "nil pointer dereference"
  | some cont =>
    match dc with
    | none => .panic "nil pointer dereference"
    | some _ => .done (w.sent (.kill cont.ID) (E.kill w.engine cont.ID).2)

/-- Function `RemoveContainer` of the source; the value returned is the Go
`error`, `none` being nil. -/
def RemoveContainer {σ : Type} (E : Engine σ) (w : World σ) (c : Container) :
    Outcome (Option String × World σ) :=
  let r := NewClient E w
  let dc := r.1.1
  let w := r.2
  match c.Container with
  | none => .panic "nil pointer dereference"
  | some cont =>
    match dc with
    | none => .panic "nil pointer dereference"
    | some _ =>
      let r := E.remove w.engine cont.ID
      let w := w.sent (.remove cont.ID) r.2
      match r.1 with
      | some err => .done (some err, w)
      | none =>
        let containerFileName := c.name ++ ".container"
        let r := osRemove w.fs containerFileName
        .done (r.1, { w with fs := r.2 })

/-! ## Concrete inputs -/

/-- A running fixture `web` whose port `8080/tcp` is bound first to
`192.0.2.5:33000`, then to `198.51.100.7:44000`. -/
def exContainer : Container :=
  { Container := some
      { ID := "abc123"
        NetworkSettings := some
          { Ports := [("8080/tcp", [⟨"192.0.2.5", "33000"⟩, ⟨"198.51.100.7", "44000"⟩]),
                      ("9090/udp", [])] } }
    name := "web" }

/-- An engine that accepts every target and every request; the `n`-th
container it creates gets an identifier of `n + 1` letters `c`. -/
def exEngine : Engine Nat where
  dial := fun _ => none
  create := fun n _ => (.ok ⟨String.mk (List.replicate (n + 1) 'c'), none⟩, n + 1)
  start := fun n _ _ => (some "already running", n)
  inspect := fun n id => (.ok ⟨id, some ⟨[]⟩⟩, n)
  kill := fun n _ => (none, n)
  remove := fun n _ => (none, n)

/-- The engine `exEngine` refusing every remove request. -/
def exEngineNoRemove : Engine Nat :=
  { exEngine with remove := fun n _ => (some "no such container", n) }

/-- The engine `exEngine` behind a client library that rejects every
target. -/
def exEngineNoDial : Engine Nat :=
  { exEngine with dial := fun _ => some "invalid endpoint" }

/-- A file system holding exactly the given files, with no refusals. -/
def fsOf (files : List (String × String)) : FileSys :=
  { files := fun n => files.lookup n, noRead := [], noWrite := [] }

/-- A world at rest with the given environment and files. -/
def worldOf (env : Environ) (files : List (String × String)) : World Nat :=
  { env := env, fs := fsOf files, dockerURL := "", engine := 0,
    dials := [], requests := [], log := [] }

/-- Number of create requests in a list of requests. -/
def createCount : List Request → Nat
  | [] => 0
  | .create _ :: rs => createCount rs + 1
  | _ :: rs => createCount rs

/-- The engine `E` with the error answered to start requests replaced by `f`;
the state reached by a start request is the one of `E`. -/
def Engine.withStartError {σ : Type} (E : Engine σ)
    (f : σ → String → Bool → Option String) : Engine σ :=
  { E with start := fun s id p => (f s id p, (E.start s id p).2) }

/-- One call of a sequence on a fixed fixture name and image:
`StartContainer(name, image)` or `StopContainer(c)`. -/
inductive Call where
  | start
  | stop (c : Container)

/-- A sequence of calls run from a world; an abort ends the run. -/
def runCalls {σ : Type} (E : Engine σ) (name image : String) :
    List Call → World σ → Outcome (World σ)
  | [], w => .done w
  | .start :: cs, w =>
    match StartContainer E w name image with
    | .panic msg => .panic msg
    | .done r => runCalls E name image cs r.2
  | .stop c :: cs, w =>
    match StopContainer E w c with
    | .panic msg => .panic msg
    | .done w' => runCalls E name image cs w'

/-- The requests a sequence of calls is to send when every start reuses the
identifier `id`: start and inspect of `id` for a start, kill of the
container's identifier for a stop. -/
def laterRequests (id : String) : List Call → List Request
  | [] => []
  | .start :: cs => .start id true :: .inspect id :: laterRequests id cs
  | .stop c :: cs =>
    match c.Container with
    | some cont => .kill cont.ID :: laterRequests id cs
    | none => laterRequests id cs

/-- The connection target `NewClient` computes from the environment. -/
def connTarget (env : Environ) : ConnTarget :=
  if envDefault env "DOCKER_CERT_PATH" "" ≠ "" then
    .tls (envDefault env "DOCKER_HOST" "unix:///var/run/docker.sock")
      (pathJoin [envDefault env "DOCKER_CERT_PATH" "", "cert.pem"])
      (pathJoin [envDefault env "DOCKER_CERT_PATH" "", "key.pem"])
      (pathJoin [envDefault env "DOCKER_CERT_PATH" "", "ca.pem"])
  else .plain (envDefault env "DOCKER_HOST" "unix:///var/run/docker.sock")

/-! ## Port resolution -/

/-- C1: when the port table of the container maps `portSpec` to a non-empty
list of bindings and `DOCKER_HOST` is unset or empty, `PortURL` returns a nil
error and the URL whose scheme is the protocol of `portSpec` and whose host is
the host IP of the first binding, a colon, and its host port; the later
bindings do not occur in the result. -/
theorem portURL_local_first_binding (env : Environ) (cont : Container)
    (dc : DockerContainer) (ns : NetworkSettings) (portSpec : String)
    (first : PortBinding) (later : List PortBinding)
    (hc : cont.Container = some dc) (hn : dc.NetworkSettings = some ns)
    (hp : portsAt ns.Ports portSpec = first :: later)
    (he : env.lookup "DOCKER_HOST" = none ∨ env.lookup "DOCKER_HOST" = some "") :
    PortURL env cont portSpec =
      .done (some { Scheme := Proto portSpec,
                    Host := first.HostIP ++ ":" ++ first.HostPort }, none) := by
  have hg : osGetenv env "DOCKER_HOST" = "" := by
    unfold osGetenv
    rcases he with h | h <;> rw [h] <;> rfl
  unfold PortURL
  simp [hc, hn, hp, hg, index?]

/-- Witness of C1: `8080/tcp` bound first to `192.0.2.5:33000` with no
`DOCKER_HOST` gives `tcp://192.0.2.5:33000`. -/
theorem portURL_local_first_binding_witness :
    PortURL [] exContainer "8080/tcp" =
      .done (some { Scheme := "tcp", Host := "192.0.2.5:33000" }, none) :=
  portURL_local_first_binding [] exContainer _ _ "8080/tcp" ⟨"192.0.2.5", "33000"⟩
    [⟨"198.51.100.7", "44000"⟩] rfl rfl (by decide) (Or.inl (by decide))

/-- C2, the code at the failing input: `tcp://[::1]:2376` parses with the host
`[::1]:2376`, yet `PortURL` returns the host `[:33000`, the text before the
first colon of the bracketed literal; the address `tcp://10.0.0.9:2376` gives
`10.0.0.9:33000`. -/
theorem portURL_ipv6_engine_host :
    urlParse "tcp://[::1]:2376" = .ok { Scheme := "tcp", Host := "[::1]:2376" } ∧
    PortURL [("DOCKER_HOST", "tcp://[::1]:2376")] exContainer "8080/tcp" =
      .done (some { Scheme := "tcp", Host := "[:33000" }, none) ∧
    PortURL [("DOCKER_HOST", "tcp://10.0.0.9:2376")] exContainer "8080/tcp" =
      .done (some { Scheme := "tcp", Host := "10.0.0.9:33000" }, none) := by
  decide

/-- C3, the code on an unpublished port: when the port table has no binding
for `portSpec` (key absent, or empty list), `PortURL` aborts; it returns
neither an error nor a URL. -/
theorem portURL_unpublished_aborts (env : Environ) (cont : Container) (portSpec : String)
    (hp : ∀ dc ns, cont.Container = some dc → dc.NetworkSettings = some ns →
      portsAt ns.Ports portSpec = []) :
    ∃ msg, PortURL env cont portSpec = .panic msg := by
  cases hc : cont.Container with
  | none => exact ⟨"nil pointer dereference", by simp [PortURL, hc]⟩
  | some dc =>
    cases hn : dc.NetworkSettings with
    | none => exact ⟨"nil pointer dereference", by simp [PortURL, hc, hn]⟩
    | some ns =>
      exact ⟨"index out of range", by simp [PortURL, hc, hn, hp dc ns hc hn, index?]⟩

/-- Witness of C3: the key `443/tcp` is absent from the table of `exContainer`
and the key `9090/udp` has an empty list; both calls abort. -/
theorem portURL_unpublished_aborts_witness :
    (∃ msg, PortURL [] exContainer "443/tcp" = .panic msg) ∧
    PortURL [] exContainer "9090/udp" = .panic "index out of range" :=
  ⟨portURL_unpublished_aborts [] exContainer "443/tcp"
      (by intro dc ns hc hn; cases hc; cases hn; decide),
    by decide⟩

/-- C9, the code at the failing input: `unix:///var/run/docker.sock` parses
with an empty host, and `PortURL` returns the host `:33000`, whereas with
`DOCKER_HOST` unset it returns `192.0.2.5:33000`. -/
theorem portURL_socket_address_empty_host :
    urlParse "unix:///var/run/docker.sock" =
      .ok { Scheme := "unix", Host := "", Path := "/var/run/docker.sock" } ∧
    PortURL [("DOCKER_HOST", "unix:///var/run/docker.sock")] exContainer "8080/tcp" =
      .done (some { Scheme := "tcp", Host := ":33000" }, none) ∧
    PortURL [] exContainer "8080/tcp" =
      .done (some { Scheme := "tcp", Host := "192.0.2.5:33000" }, none) := by
  decide

/-! ## Connection resolution -/

/-- C6: `NewClient` asks the client library for exactly one connection target
`t` and returns what the library returns for it. The address of `t` is the
default socket when `DOCKER_HOST` is unset, or set to the empty string (which
gives no address), and the value of `DOCKER_HOST` when that is set and not
empty; so the address is fixed in every configuration, and it is also what the
package variable `dockerURL` holds afterwards. When `DOCKER_CERT_PATH` is a non-empty `d`, `t` is
the TLS target whose certificate, key and CA are `cert.pem`, `key.pem` and
`ca.pem` joined under `d`; when it is unset or empty, `t` is the plain target.
No engine request is sent and no file is touched. -/
theorem newClient_target {σ : Type} (E : Engine σ) (w : World σ) :
    ∃ t, (NewClient E w).2.dials = w.dials ++ [t] ∧
      (NewClient E w).1 = dockerDial E t ∧
      (w.env.lookup "DOCKER_HOST" = none ∨ w.env.lookup "DOCKER_HOST" = some "" →
        t.endpoint = "unix:///var/run/docker.sock") ∧
      (∀ a, w.env.lookup "DOCKER_HOST" = some a → a ≠ "" → t.endpoint = a) ∧
      (NewClient E w).2.dockerURL = t.endpoint ∧
      (∀ d, w.env.lookup "DOCKER_CERT_PATH" = some d → d ≠ "" →
        t = .tls t.endpoint (pathJoin [d, "cert.pem"]) (pathJoin [d, "key.pem"])
              (pathJoin [d, "ca.pem"])) ∧
      (w.env.lookup "DOCKER_CERT_PATH" = none ∨ w.env.lookup "DOCKER_CERT_PATH" = some "" →
        t = .plain t.endpoint) ∧
      (NewClient E w).2.requests = w.requests ∧ (NewClient E w).2.fs = w.fs := by
  by_cases hcert : envDefault w.env "DOCKER_CERT_PATH" "" = ""
  · refine ⟨.plain (envDefault w.env "DOCKER_HOST" "unix:///var/run/docker.sock"),
      ?_, ?_, ?_, ?_, ?_, ?_, ?_, ?_, ?_⟩
    · simp [NewClient, hcert]
    · simp [NewClient, hcert]
    · intro h
      rcases h with h | h <;> simp [ConnTarget.endpoint, envDefault, osGetenv, h]
    · intro a h ha; simp [ConnTarget.endpoint, envDefault, osGetenv, h, ha]
    · simp [NewClient, hcert, ConnTarget.endpoint]
    · intro d h hd; simp [envDefault, osGetenv, h, hd] at hcert
    · intro _; rfl
    · simp [NewClient, hcert]
    · simp [NewClient, hcert]
  · refine ⟨.tls (envDefault w.env "DOCKER_HOST" "unix:///var/run/docker.sock")
      (pathJoin [envDefault w.env "DOCKER_CERT_PATH" "", "cert.pem"])
      (pathJoin [envDefault w.env "DOCKER_CERT_PATH" "", "key.pem"])
      (pathJoin [envDefault w.env "DOCKER_CERT_PATH" "", "ca.pem"]),
      ?_, ?_, ?_, ?_, ?_, ?_, ?_, ?_, ?_⟩
    · simp [NewClient, hcert]
    · simp [NewClient, hcert]
    · intro h
      rcases h with h | h <;> simp [ConnTarget.endpoint, envDefault, osGetenv, h]
    · intro a h ha; simp [ConnTarget.endpoint, envDefault, osGetenv, h, ha]
    · simp [NewClient, hcert, ConnTarget.endpoint]
    · intro d h hd; simp [ConnTarget.endpoint, envDefault, osGetenv, h, hd]
    · intro h; exfalso; apply hcert
      rcases h with h | h <;> simp [envDefault, osGetenv, h]
    · simp [NewClient, hcert]
    · simp [NewClient, hcert]

/-- Witness of C6: with `DOCKER_CERT_PATH=/certs` and `DOCKER_HOST` unset the
one target requested is the TLS target at the default socket with the files
`/certs/cert.pem`, `/certs/key.pem` and `/certs/ca.pem`; with `DOCKER_HOST`
set to the empty string and no `DOCKER_CERT_PATH` it is the plain target at
the default socket. -/
theorem newClient_target_witness :
    (NewClient exEngine (worldOf [("DOCKER_CERT_PATH", "/certs")] [])).2.dials =
      [.tls "unix:///var/run/docker.sock" "/certs/cert.pem" "/certs/key.pem"
        "/certs/ca.pem"] ∧
    (NewClient exEngine (worldOf [("DOCKER_HOST", "")] [])).2.dials =
      [.plain "unix:///var/run/docker.sock"] := by
  constructor
  · obtain ⟨t, hd, _, h1, _, _, h3, _⟩ :=
      newClient_target exEngine (worldOf [("DOCKER_CERT_PATH", "/certs")] [])
    have e := h1 (Or.inl (by decide))
    have ht := h3 "/certs" (by decide) (by decide)
    rw [e] at ht
    rw [hd, ht]
    decide
  · obtain ⟨t, hd, _, h1, _, _, _, h4, _⟩ :=
      newClient_target exEngine (worldOf [("DOCKER_HOST", "")] [])
    have e := h1 (Or.inr (by decide))
    have ht := h4 (Or.inl (by decide))
    rw [e] at ht
    rw [hd, ht]
    decide

/-! ## Lifecycle: shared lemmas -/

/-- `NewClient` in one piece: the answer of the client library for the target computed
from the environment, and the world with `dockerURL` set and the target recorded. -/
theorem newClient_eq {σ : Type} (E : Engine σ) (w : World σ) :
    NewClient E w = (dockerDial E (connTarget w.env),
      { w with dockerURL := envDefault w.env "DOCKER_HOST" "unix:///var/run/docker.sock",
               dials := w.dials ++ [connTarget w.env] }) := by
  unfold NewClient connTarget
  by_cases h : envDefault w.env "DOCKER_CERT_PATH" "" = "" <;> simp [h]

/-- The client library returns a nil client with an error, or a client with a nil
error. -/
theorem dockerDial_cases {σ : Type} (E : Engine σ) (t : ConnTarget) :
    (∃ err, E.dial t = some err ∧ dockerDial E t = (none, some err)) ∨
    (E.dial t = none ∧ dockerDial E t = (some ⟨t⟩, none)) := by
  unfold dockerDial
  cases h : E.dial t with
  | none => exact Or.inr ⟨rfl, rfl⟩
  | some err => exact Or.inl ⟨err, rfl, rfl⟩

/-- `NewClient` returns a nil error exactly when the library accepts the target. -/
theorem newClient_ok_iff {σ : Type} (E : Engine σ) (w : World σ) :
    (NewClient E w).1.2 = none ↔ E.dial (connTarget w.env) = none := by
  rw [newClient_eq]
  rcases dockerDial_cases E (connTarget w.env) with ⟨err, h1, h2⟩ | ⟨h1, h2⟩ <;> simp [h1, h2]

/-- `NewClient` returns the error the library gives for the target. -/
theorem newClient_err_iff {σ : Type} (E : Engine σ) (w : World σ) (err : String) :
    (NewClient E w).1.2 = some err ↔ E.dial (connTarget w.env) = some err := by
  rw [newClient_eq]
  rcases dockerDial_cases E (connTarget w.env) with ⟨e, h1, h2⟩ | ⟨h1, h2⟩ <;> simp [h1, h2]

/-- A string has a length other than zero exactly when it is not empty. -/
theorem string_length_ne_zero (s : String) : s.length ≠ 0 ↔ s ≠ "" := by
  cases s with
  | mk data =>
    cases data with
    | nil => simp [String.length]
    | cons c cs =>
      simp [String.length]
      intro h
      have := congrArg String.data h
      simp at this

/-- With a client, the tail of `StartContainer` writes the identity file, sends start
and inspect, and returns what inspect answers. -/
theorem startTail_spec {σ : Type} (E : Engine σ) (c : Container) (cl : Client)
    (file id : String) (w : World σ) :
    ∃ w', startTail E c (some cl) file id w =
        .done ((match (E.inspect (E.start w.engine id true).2 id).1 with
                | .error err => (c, some err)
                | .ok snap => ({ c with Container := some snap }, none)), w') ∧
      w'.env = w.env ∧ w'.fs = (writeFile w.fs file id).2 ∧
      w'.requests = w.requests ++ [.start id true, .inspect id] ∧
      w'.engine = (E.inspect (E.start w.engine id true).2 id).2 := by
  unfold startTail
  cases h : (E.inspect (E.start w.engine id true).2 id).1 with
  | error err => simp [World.sent, h]
  | ok snap => simp [World.sent, h]

/-- `StartContainer` when the library rejects the target: the error is returned and
nothing else happens. -/
theorem startContainer_dial_err {σ : Type} (E : Engine σ) (w : World σ)
    (name image err : String) (hdial : E.dial (connTarget w.env) = some err) :
    ∃ w', StartContainer E w name image = .done ((⟨none, name⟩, some err), w') ∧
      w'.env = w.env ∧ w'.fs = w.fs ∧ w'.requests = w.requests ∧ w'.engine = w.engine := by
  unfold StartContainer
  simp [newClient_eq, dockerDial, hdial]

/-- `StartContainer` when the identity file gives a non-empty identifier. -/
theorem startContainer_reuse {σ : Type} (E : Engine σ) (w : World σ)
    (name image cid : String) (hdial : E.dial (connTarget w.env) = none)
    (hcid : readData w.fs (name ++ ".container") = cid) (hne : cid ≠ "") :
    ∃ w', StartContainer E w name image =
        .done ((match (E.inspect (E.start w.engine cid true).2 cid).1 with
                | .error err => (⟨none, name⟩, some err)
                | .ok snap => (⟨some snap, name⟩, none)), w') ∧
      w'.env = w.env ∧ w'.fs = (writeFile w.fs (name ++ ".container") cid).2 ∧
      w'.requests = w.requests ++ [.start cid true, .inspect cid] ∧
      w'.engine = (E.inspect (E.start w.engine cid true).2 cid).2 := by
  have hlen : cid.length ≠ 0 := (string_length_ne_zero cid).2 hne
  obtain ⟨w', h1, h2, h3, h4, h5⟩ := startTail_spec E ⟨none, name⟩ ⟨connTarget w.env⟩
    (name ++ ".container") cid
    (World.logged { w with dockerURL := envDefault w.env "DOCKER_HOST" "unix:///var/run/docker.sock",
                           dials := w.dials ++ [connTarget w.env] }
      ("Using existing container: " ++ cid))
  refine ⟨w', ?_, h2, h3, h4, h5⟩
  unfold StartContainer
  simp only [newClient_eq, dockerDial, hdial, hcid]
  simpa [hlen] using h1

/-- `StartContainer` when the identity file gives nothing and the create request
succeeds. -/
theorem startContainer_create_ok {σ : Type} (E : Engine σ) (w : World σ)
    (name image : String) (cont : DockerContainer) (s0 : σ)
    (hdial : E.dial (connTarget w.env) = none)
    (hcid : readData w.fs (name ++ ".container") = "")
    (hcr : E.create w.engine image = (.ok cont, s0)) :
    ∃ w', StartContainer E w name image =
        .done ((match (E.inspect (E.start s0 cont.ID true).2 cont.ID).1 with
                | .error err => (⟨none, name⟩, some err)
                | .ok snap => (⟨some snap, name⟩, none)), w') ∧
      w'.env = w.env ∧ w'.fs = (writeFile w.fs (name ++ ".container") cont.ID).2 ∧
      w'.requests = w.requests ++ [.create image, .start cont.ID true, .inspect cont.ID] ∧
      w'.engine = (E.inspect (E.start s0 cont.ID true).2 cont.ID).2 := by
  obtain ⟨w', h1, h2, h3, h4, h5⟩ := startTail_spec E ⟨none, name⟩ ⟨connTarget w.env⟩
    (name ++ ".container") cont.ID
    (World.logged (World.sent (World.logged
      { w with dockerURL := envDefault w.env "DOCKER_HOST" "unix:///var/run/docker.sock",
               dials := w.dials ++ [connTarget w.env] }
      ("Creating new container for " ++ image)) (.create image) s0)
      ("Created container: " ++ cont.ID))
  refine ⟨w', ?_, h2, h3, ?_, h5⟩
  · unfold StartContainer
    simp only [newClient_eq, dockerDial, hdial, hcid]
    simpa [World.logged, World.sent, hcr] using h1
  · simpa [World.logged, World.sent] using h4

/-- `StartContainer` when the identity file gives nothing and the create request
fails. -/
theorem startContainer_create_err {σ : Type} (E : Engine σ) (w : World σ)
    (name image err : String) (s0 : σ)
    (hdial : E.dial (connTarget w.env) = none)
    (hcid : readData w.fs (name ++ ".container") = "")
    (hcr : E.create w.engine image = (.error err, s0)) :
    ∃ w', StartContainer E w name image = .done ((⟨none, name⟩, some err), w') ∧
      w'.env = w.env ∧ w'.fs = w.fs ∧ w'.requests = w.requests ++ [.create image] := by
  unfold StartContainer
  simp [newClient_eq, dockerDial, hdial, hcid, World.logged, World.sent, hcr]

/-- `StopContainer` with a client and a container that is not nil sends one kill
request and changes neither environment nor files. -/
theorem stopContainer_spec {σ : Type} (E : Engine σ) (w : World σ) (c : Container)
    (cont : DockerContainer) (hdial : E.dial (connTarget w.env) = none)
    (hc : c.Container = some cont) :
    ∃ w', StopContainer E w c = .done w' ∧ w'.env = w.env ∧ w'.fs = w.fs ∧
      w'.requests = w.requests ++ [.kill cont.ID] := by
  unfold StopContainer
  simp [newClient_eq, dockerDial, hdial, hc, World.sent]

/-- Reading a readable file gives its content. -/
theorem readData_of_file (fs : FileSys) (file id : String)
    (hr : file ∉ fs.noRead) (hf : fs.files file = some id) : readData fs file = id := by
  simp [readData, readFile, hr, hf]

/-- A permitted write stores the content and keeps the refusal lists. -/
theorem writeFile_ok (fs : FileSys) (file id : String) (hw : file ∉ fs.noWrite) :
    (writeFile fs file id).2.files file = some id ∧
    (writeFile fs file id).2.noRead = fs.noRead ∧
    (writeFile fs file id).2.noWrite = fs.noWrite := by
  simp [writeFile, hw]

/-- Create requests of a concatenation. -/
theorem createCount_append (xs ys : List Request) :
    createCount (xs ++ ys) = createCount xs + createCount ys := by
  induction xs with
  | nil => simp [createCount]
  | cons x xs ih =>
    cases x <;> simp [createCount, ih]
    omega

/-- The requests of reusing calls hold no create request. -/
theorem createCount_laterRequests (id : String) (calls : List Call) :
    createCount (laterRequests id calls) = 0 := by
  induction calls with
  | nil => rfl
  | cons c cs ih =>
    cases c with
    | start => simpa [laterRequests, createCount] using ih
    | stop c =>
      cases hc : c.Container with
      | none => simpa [laterRequests, hc] using ih
      | some cont => simpa [laterRequests, hc, createCount] using ih

/-- From a world whose identity file holds `id`, readable and writable, with the
target accepted, every sequence of starts and of stops on containers that are
not nil runs to an end, keeps `id` in the file and sends exactly the requests
`laterRequests id calls`. -/
theorem runCalls_reuse {σ : Type} (E : Engine σ) (name image id : String) (env : Environ)
    (hdial : E.dial (connTarget env) = none) (hne : id ≠ "") (calls : List Call) :
    ∀ w : World σ, w.env = env → name ++ ".container" ∉ w.fs.noRead →
      name ++ ".container" ∉ w.fs.noWrite → w.fs.files (name ++ ".container") = some id →
      (∀ c, Call.stop c ∈ calls → c.Container ≠ none) →
      ∃ w2, runCalls E name image calls w = .done w2 ∧
        w2.fs.files (name ++ ".container") = some id ∧
        w2.requests = w.requests ++ laterRequests id calls := by
  induction calls with
  | nil =>
    intro w _ _ _ hf _
    exact ⟨w, rfl, hf, by simp [laterRequests]⟩
  | cons c cs ih =>
    intro w he hr hw hf hs
    have hs' : ∀ c', Call.stop c' ∈ cs → c'.Container ≠ none :=
      fun c' hc' => hs c' (List.mem_cons_of_mem _ hc')
    cases c with
    | start =>
      obtain ⟨w', h1, h2, h3, h4, _⟩ := startContainer_reuse E w name image id
        (by rw [he]; exact hdial) (readData_of_file w.fs _ id hr hf) hne
      obtain ⟨k1, k2, k3⟩ := writeFile_ok w.fs (name ++ ".container") id hw
      obtain ⟨w2, g1, g2, g3⟩ := ih w' (h2.trans he) (by rw [h3, k2]; exact hr)
        (by rw [h3, k3]; exact hw) (by rw [h3]; exact k1) hs'
      refine ⟨w2, ?_, g2, ?_⟩
      · simp only [runCalls, h1]; exact g1
      · rw [g3, h4]; simp [laterRequests]
    | stop c =>
      cases hc : c.Container with
      | none => exact absurd hc (hs c (List.mem_cons_self _ _))
      | some cont =>
        obtain ⟨w', h1, h2, h3, h4⟩ := stopContainer_spec E w c cont
          (by rw [he]; exact hdial) hc
        obtain ⟨w2, g1, g2, g3⟩ := ih w' (h2.trans he) (by rw [h3]; exact hr)
          (by rw [h3]; exact hw) (by rw [h3]; exact hf) hs'
        refine ⟨w2, ?_, g2, ?_⟩
        · simp only [runCalls, h1]; exact g1
        · rw [g3, h4]; simp [laterRequests, hc]

/-! ## Lifecycle: the claims -/

/-- C4: when the engine answers the remove request of `RemoveContainer` with
an error, `RemoveContainer` returns that error and the files are exactly as
before; and whenever `RemoveContainer` returns a nil error, the identity file
of the fixture name does not exist afterwards. -/
theorem removeContainer_identity_file {σ : Type} (E : Engine σ) (w : World σ)
    (c : Container) :
    (∀ cont err s, c.Container = some cont → (NewClient E w).1.2 = none →
      E.remove w.engine cont.ID = (some err, s) →
      ∃ w', RemoveContainer E w c = .done (some err, w') ∧ w'.fs = w.fs ∧
        w'.requests = w.requests ++ [.remove cont.ID]) ∧
    (∀ w', RemoveContainer E w c = .done (none, w') →
      w'.fs.files (c.name ++ ".container") = none) := by
  constructor
  · intro cont err s hc hd hr
    have hdial := (newClient_ok_iff E w).1 hd
    unfold RemoveContainer
    simp [newClient_eq, dockerDial, hdial, hc, World.sent, hr]
  · intro w' h
    unfold RemoveContainer at h
    rw [newClient_eq] at h
    cases hc : c.Container with
    | none => simp [hc] at h
    | some cont =>
      rcases dockerDial_cases E (connTarget w.env) with ⟨e, _, h2⟩ | ⟨_, h2⟩
      · simp [hc, h2] at h
      · simp only [hc, h2] at h
        cases hr : (E.remove w.engine cont.ID).1 with
        | some err => simp [World.sent, hr] at h
        | none =>
          simp only [World.sent, hr, osRemove] at h
          cases hf : w.fs.files (c.name ++ ".container") with
          | none => simp [hf] at h
          | some data =>
            by_cases hw : c.name ++ ".container" ∈ w.fs.noWrite
            · simp [hf, hw] at h
            · simp [hf, hw] at h
              rw [← h]
              simp

/-- Witness of C4: with the identity file `web.container` present, a refused
remove request leaves the files as they were, and an accepted one ends with
the file gone. -/
theorem removeContainer_identity_file_witness :
    (∃ w', RemoveContainer exEngineNoRemove (worldOf [] [("web.container", "abc123")])
        exContainer = .done (some "no such container", w') ∧
      w'.fs = (worldOf [] [("web.container", "abc123")]).fs ∧
      w'.requests = [.remove "abc123"]) ∧
    (∃ w', RemoveContainer exEngine (worldOf [] [("web.container", "abc123")])
        exContainer = .done (none, w') ∧ w'.fs.files "web.container" = none) :=
  ⟨(removeContainer_identity_file exEngineNoRemove
      (worldOf [] [("web.container", "abc123")]) exContainer).1
      ⟨"abc123", _⟩ "no such container" 0 rfl (by decide) rfl,
   ⟨_, rfl, (removeContainer_identity_file exEngine
      (worldOf [] [("web.container", "abc123")]) exContainer).2 _ rfl⟩⟩

/-- C7, the code when the connection cannot be resolved: `StartContainer`
returns the error of `NewClient` with no engine request sent and no file
changed, whereas `RemoveContainer` drops that error, calls the nil client and
aborts. -/
theorem newClient_failure_start_returns_remove_aborts {σ : Type} (E : Engine σ)
    (w : World σ) (name image err : String) (c : Container)
    (h : (NewClient E w).1.2 = some err) :
    (∃ w', StartContainer E w name image = .done ((⟨none, name⟩, some err), w') ∧
      w'.requests = w.requests ∧ w'.fs = w.fs) ∧
    (∃ msg, RemoveContainer E w c = .panic msg) := by
  have hdial := (newClient_err_iff E w err).1 h
  constructor
  · obtain ⟨w', h1, _, h3, h4, _⟩ := startContainer_dial_err E w name image err hdial
    exact ⟨w', h1, h4, h3⟩
  · refine ⟨"nil pointer dereference", ?_⟩
    unfold RemoveContainer
    cases hc : c.Container <;> simp [newClient_eq, dockerDial, hdial]

/-- Witness of C7: behind a client library that rejects the endpoint,
`StartContainer` returns the error and `RemoveContainer` aborts. -/
theorem newClient_failure_start_returns_remove_aborts_witness :
    (∃ w', StartContainer exEngineNoDial (worldOf [] []) "web" "img" =
        .done ((⟨none, "web"⟩, some "invalid endpoint"), w') ∧
      w'.requests = (worldOf [] []).requests ∧ w'.fs = (worldOf [] []).fs) ∧
    (∃ msg, RemoveContainer exEngineNoDial (worldOf [] []) exContainer = .panic msg) :=
  newClient_failure_start_returns_remove_aborts exEngineNoDial (worldOf [] [])
    "web" "img" "invalid endpoint" exContainer (by decide)

/-- C8 as stated fails: the engine accepts the remove request, no identity
file `web.container` exists, and `RemoveContainer` returns an error. -/
theorem removeContainer_absent_identity_counterexample :
    (worldOf [] []).fs.files (exContainer.name ++ ".container") = none ∧
    exEngine.remove (worldOf [] []).engine "abc123" = (none, 0) ∧
    ∃ w', RemoveContainer exEngine (worldOf [] []) exContainer =
      .done (some "no such file or directory", w') :=
  ⟨by decide, rfl, _, rfl⟩

/-- C8 amended: when the engine accepts the remove request and no identity
file of the fixture name exists, `RemoveContainer` returns the error of the
failed file removal, having sent the one remove request and left the files as
they were. -/
theorem removeContainer_missing_file_error {σ : Type} (E : Engine σ) (w : World σ)
    (c : Container) (cont : DockerContainer) (s : σ)
    (hc : c.Container = some cont) (hd : (NewClient E w).1.2 = none)
    (hr : E.remove w.engine cont.ID = (none, s))
    (hf : w.fs.files (c.name ++ ".container") = none) :
    ∃ err w', RemoveContainer E w c = .done (some err, w') ∧ w'.fs = w.fs ∧
      w'.requests = w.requests ++ [.remove cont.ID] := by
  have hdial := (newClient_ok_iff E w).1 hd
  refine ⟨"no such file or directory", ?_⟩
  unfold RemoveContainer
  simp [newClient_eq, dockerDial, hdial, hc, World.sent, hr, osRemove, hf]

/-- Witness of C8 amended, on the fixture `web` with no identity file. -/
theorem removeContainer_missing_file_error_witness :
    ∃ err w', RemoveContainer exEngine (worldOf [] []) exContainer = .done (some err, w') ∧
      w'.fs = (worldOf [] []).fs ∧
      w'.requests = (worldOf [] []).requests ++ [.remove "abc123"] :=
  removeContainer_missing_file_error exEngine (worldOf [] []) exContainer
    ⟨"abc123", _⟩ 0 rfl (by decide) rfl (by decide)

/-- C10: when the connection resolves and the identifier `id` is obtained,
read from the identity file or returned by the create request, leaving the
engine in state `s0`, `StartContainer` sends the start request and then the
inspect request for `id`, and returns what inspect answers in the state the
start request led to: the error of inspect, or the container with the given
name and the snapshot of inspect and a nil error. The error answered to the
start request does not occur in the result: replacing it by any other leaves
the outcome of `StartContainer` unchanged. -/
theorem startContainer_inspect_decides {σ : Type} (E : Engine σ) (w : World σ)
    (name image id : String) (s0 : σ) (pre : List Request)
    (hd : (NewClient E w).1.2 = none)
    (hid : (readData w.fs (name ++ ".container") = id ∧ id ≠ "" ∧ s0 = w.engine ∧ pre = []) ∨
      (readData w.fs (name ++ ".container") = "" ∧ pre = [.create image] ∧
        ∃ cont, E.create w.engine image = (.ok cont, s0) ∧ cont.ID = id)) :
    (∃ w', StartContainer E w name image =
        .done ((match (E.inspect (E.start s0 id true).2 id).1 with
                | .error err => (⟨none, name⟩, some err)
                | .ok snap => (⟨some snap, name⟩, none)), w') ∧
      w'.requests = w.requests ++ pre ++ [.start id true, .inspect id]) ∧
    (∀ f, StartContainer (E.withStartError f) w name image = StartContainer E w name image) := by
  have hdial := (newClient_ok_iff E w).1 hd
  refine ⟨?_, fun f => rfl⟩
  rcases hid with ⟨h1, h2, h3, h4⟩ | ⟨h1, h4, cont, h2, h3⟩
  · obtain ⟨w', g1, _, _, g4, _⟩ := startContainer_reuse E w name image id hdial h1 h2
    subst h3 h4
    exact ⟨w', g1, by simpa using g4⟩
  · obtain ⟨w', g1, _, _, g4, _⟩ := startContainer_create_ok E w name image cont s0 hdial h1 h2
    subst h3 h4
    exact ⟨w', g1, by simpa using g4⟩

/-- Witness of C10: on a fresh fixture the engine `exEngine` answers the start
request with an error, and `StartContainer` returns the inspected container. -/
theorem startContainer_inspect_decides_witness :
    (exEngine.start 1 "c" true).1 = some "already running" ∧
    ∃ w', StartContainer exEngine (worldOf [] []) "web" "img" =
        .done ((⟨some ⟨"c", some ⟨[]⟩⟩, "web"⟩, none), w') ∧
      w'.requests = [.create "img", .start "c" true, .inspect "c"] :=
  ⟨rfl, (startContainer_inspect_decides exEngine (worldOf [] []) "web" "img" "c" 1
    [.create "img"] (by decide) (Or.inr ⟨by decide, rfl, ⟨"c", none⟩, rfl, rfl⟩)).1⟩

/-- C5 as stated fails: with the identity file `web.container` already
holding `abc123`, the first `StartContainer` succeeds and the engine receives
the start and inspect requests for `abc123` and no create request at all. -/
theorem startContainer_reuse_sends_no_create :
    ∃ c w', StartContainer exEngine (worldOf [] [("web.container", "abc123")]) "web" "img" =
        .done ((c, none), w') ∧
      w'.requests = [.start "abc123" true, .inspect "abc123"] ∧
      createCount w'.requests = 0 ∧
      runCalls exEngine "web" "img" [] w' = .done w' :=
  ⟨_, _, rfl, by decide, by decide, rfl⟩

/-- C5 amended: let the engine assign only non-empty identifiers, let reads
and writes of the identity file succeed, and let a first `StartContainer(name,
image)` succeed, leading from `w` to `w1`. Then there is one non-empty
identifier `id` such that: either the identity file held `id` before and the
first call sent start and inspect for `id` and no create request, or the file
was absent or empty, `id` is the identifier returned by the one create request
and the first call sent create, start and inspect; the identity file holds
`id` after the first call; and every continuation by `StartContainer(name,
image)` and `StopContainer` calls on containers that are not nil runs to an end
with the identity file still holding `id`, having sent exactly start and
inspect of `id` for each start and a kill for each stop, so that the whole
sequence holds one create request in the second case and none in the first. -/
theorem startContainer_single_identity {σ : Type} (E : Engine σ) (w w1 : World σ)
    (name image : String) (c0 : Container) (calls : List Call)
    (hid : ∀ s img cont s', E.create s img = (.ok cont, s') → cont.ID ≠ "")
    (hread : name ++ ".container" ∉ w.fs.noRead)
    (hwrite : name ++ ".container" ∉ w.fs.noWrite)
    (hfirst : StartContainer E w name image = .done ((c0, none), w1))
    (hstop : ∀ c, Call.stop c ∈ calls → c.Container ≠ none) :
    ∃ id, id ≠ "" ∧
      ((readData w.fs (name ++ ".container") = id ∧
          w1.requests = w.requests ++ [.start id true, .inspect id]) ∨
       (readData w.fs (name ++ ".container") = "" ∧
          (∃ cont, (E.create w.engine image).1 = .ok cont ∧ cont.ID = id) ∧
          w1.requests = w.requests ++ [.create image, .start id true, .inspect id])) ∧
      w1.fs.files (name ++ ".container") = some id ∧
      ∃ w2, runCalls E name image calls w1 = .done w2 ∧
        w2.fs.files (name ++ ".container") = some id ∧
        w2.requests = w1.requests ++ laterRequests id calls ∧
        createCount w2.requests = createCount w.requests +
          (if readData w.fs (name ++ ".container") = "" then 1 else 0) := by
  -- the connection resolved, or the first call had returned its error
  have hdial : E.dial (connTarget w.env) = none := by
    cases hd : E.dial (connTarget w.env) with
    | none => rfl
    | some err =>
      obtain ⟨w', h1, _⟩ := startContainer_dial_err E w name image err hd
      rw [h1] at hfirst
      simp at hfirst
  have hw := fun id => writeFile_ok w.fs (name ++ ".container") id hwrite
  by_cases hcid : readData w.fs (name ++ ".container") = ""
  · cases hcr : E.create w.engine image with
    | mk r s0 =>
      cases r with
      | error err =>
        obtain ⟨w', h1, _⟩ := startContainer_create_err E w name image err s0 hdial hcid hcr
        rw [h1] at hfirst
        simp at hfirst
      | ok cont =>
        obtain ⟨w', h1, h2, h3, h4, _⟩ :=
          startContainer_create_ok E w name image cont s0 hdial hcid hcr
        rw [h1] at hfirst
        have hw1 : w' = w1 := by
          injection hfirst with h
          exact (Prod.mk.inj h).2
        subst hw1
        have hne := hid _ _ _ _ hcr
        obtain ⟨w2, g1, g2, g3⟩ := runCalls_reuse E name image cont.ID w.env hdial hne calls
          w' h2 (by rw [h3, (hw _).2.1]; exact hread) (by rw [h3, (hw _).2.2]; exact hwrite)
          (by rw [h3]; exact (hw _).1) hstop
        refine ⟨cont.ID, hne, Or.inr ⟨hcid, ⟨cont, rfl, rfl⟩, h4⟩,
          by rw [h3]; exact (hw _).1, w2, g1, g2, g3, ?_⟩
        rw [g3, h4, createCount_append, createCount_append, createCount_laterRequests]
        simp [hcid, createCount]
  · obtain ⟨w', h1, h2, h3, h4, _⟩ :=
      startContainer_reuse E w name image _ hdial rfl hcid
    rw [h1] at hfirst
    have hw1 : w' = w1 := by
      injection hfirst with h
      exact (Prod.mk.inj h).2
    subst hw1
    obtain ⟨w2, g1, g2, g3⟩ := runCalls_reuse E name image _ w.env hdial hcid calls
      w' h2 (by rw [h3, (hw _).2.1]; exact hread) (by rw [h3, (hw _).2.2]; exact hwrite)
      (by rw [h3]; exact (hw _).1) hstop
    refine ⟨readData w.fs (name ++ ".container"), hcid, Or.inl ⟨rfl, h4⟩,
      by rw [h3]; exact (hw _).1, w2, g1, g2, g3, ?_⟩
    rw [g3, h4, createCount_append, createCount_append, createCount_laterRequests]
    simp [hcid, createCount]

/-- Witness of C5 amended: on the fresh fixture `web` the first call creates
the container `c`; after a stop and two more starts the identity file holds
`c` and the engine has received one create request. -/
theorem startContainer_single_identity_witness :
    ∃ c0 w1 id w2,
      StartContainer exEngine (worldOf [] []) "web" "img" = .done ((c0, none), w1) ∧
      id ≠ "" ∧
      runCalls exEngine "web" "img" [.stop exContainer, .start, .start] w1 = .done w2 ∧
      w2.fs.files "web.container" = some id ∧
      createCount w2.requests = 1 := by
  obtain ⟨c0, w1, h⟩ : ∃ c0 w1,
      StartContainer exEngine (worldOf [] []) "web" "img" = .done ((c0, none), w1) :=
    ⟨_, _, rfl⟩
  obtain ⟨id, hne, _, _, w2, hrun, hfile, _, hcount⟩ :=
    startContainer_single_identity exEngine (worldOf [] []) w1 "web" "img" c0
      [.stop exContainer, .start, .start]
      (by
        intro s img cont s' hc
        simp only [exEngine, Prod.mk.injEq, Except.ok.injEq] at hc
        rw [← hc.1]
        intro h
        have := congrArg String.data h
        simp [List.replicate] at this)
      (by decide) (by decide) h
      (by
        intro c hc
        simp at hc
        subst hc
        decide)
  exact ⟨c0, w1, id, w2, h, hne, hrun, hfile, by simpa using hcount⟩

end Dockfix
